import Mathlib

/-!
# sentry-vroom: call trees, collapsing and flamegraph aggregation

A shallow embedding of the profiling pipeline of the repository and the
properties its specification states about it.

Conventions of the embedding:

* Go's `uint64` / `uint32` values are natural numbers; a value of the machine
  type is one below `2 ^ 64` (resp. `2 ^ 32`), and arithmetic that can wrap is
  written out with an explicit `% 2 ^ 64`.
* A Go slice is a `List`; the `nil` slice and the empty slice are both `[]`.
* A pointer to a struct that is only read, or only written by its owner, is
  the struct value itself; a method that mutates its receiver returns the new
  value of the receiver.
* A Go `map[uint64]V` is an association list, read with the zero value of `V`
  for a missing key.
-/

set_option autoImplicit false

/-! ## `internal/calltree` (not part of the sources at hand) -/

namespace calltree

/-- Modelled from the spec: `calltree.ImageBaseName`, called by
`nodetree.NodeFromFrame`, is not among the sources. Section 4.1 says that
package/image identifiers are normalized to a base name, stripping the
filesystem path components: the text that follows the last `/`. -/
def ImageBaseName (image : String) : String :=
  String.mk (image.data.reverse.takeWhile (fun c => c != '/')).reverse

end calltree

/-! ## `internal/nodetree/nodetree.go` -/

namespace nodetree

/-- The modulus of `uint64` arithmetic. -/
def u64 : Nat := 2 ^ 64

/-- Go's `a - b` on `uint64` operands: the difference modulo `2 ^ 64`. -/
def sub64 (a b : Nat) : Nat := (a + (u64 - b % u64)) % u64

/-- The struct `nodetree.Node`: the ten fields of `nodetree.go`, in its order
(`Children []*Node` is the list of the child nodes), followed by the two
fields `IsApplication` and `SampleCount` that only the node literals of
`nodetree_test.go` set. No function of `nodetree.go` reads or writes these
two; a composite literal that does not mention them leaves them at their zero
values. -/
structure Node where
  DurationNS : Nat
  EndNS : Nat
  Fingerprint : Nat
  Line : Nat
  Name : String
  ID : Nat
  Package : String
  Path : String
  StartNS : Nat
  Children : List Node
  IsApplication : Bool
  SampleCount : Nat
deriving Repr

/-- `NodeFromFrame(pkg, name, path, line, start, end, id)`: the composite
literal leaves `DurationNS` and `Children` at their zero values, and the
duration is filled in only under the guard `end > 0`. -/
def NodeFromFrame (pkg name path : String) (line start end_ id : Nat) : Node :=
  let n : Node :=
    { DurationNS := 0
      EndNS := end_
      Fingerprint := id
      Line := line
      Name := name
      ID := id
      Package := calltree.ImageBaseName pkg
      Path := path
      StartNS := start
      Children := []
      IsApplication := false
      SampleCount := 0 }
  if end_ > 0 then { n with DurationNS := sub64 n.EndNS n.StartNS } else n

/-- `(n *Node).SetDuration(t)`: two assignments, the second reading the end
timestamp just written. -/
def Node.SetDuration (n : Node) (t : Nat) : Node :=
  let n1 : Node := { n with EndNS := t }
  { n1 with DurationNS := sub64 n1.EndNS n1.StartNS }

mutual
/-- The number of root-to-node chains starting at the node that spell `path`:
a chain descends from a node to one of its children, and the names of its
nodes are the entries of `path`, in order. -/
def Node.countChains : Node → List String → Nat
  | _, [] => 0
  | ⟨_, _, _, _, name, _, _, _, _, children, _, _⟩, f :: rest =>
    if name = f then (if rest = [] then 1 else 0) + countChainsIn children rest else 0
/-- The number of chains spelling `path` that start at a node of the list. -/
def countChainsIn : List Node → List String → Nat
  | [], _ => 0
  | n :: ns, path => n.countChains path + countChainsIn ns path
end

mutual
/-- Modelled from the spec: `(n *Node).Collapse()` is exercised by
`nodetree_test.go` but is not in `nodetree.go`. Section 4.3: the children are
collapsed first, each child giving a sequence of replacement nodes; then, in
this order, (1) a node without a name is dropped and its collapsed children
are promoted in its place, (2) so is a node with `SampleCount == 1`, (3) a
node left with exactly one child of the same `DurationNS` is fused with it,
the node being kept (over the child's children) when it is an application
frame and the child is not, the child being kept otherwise, (4) any other
node is kept over its collapsed children. -/
def Node.Collapse : Node → List Node
  | ⟨d, e, fp, line, name, id, pkg, path, start, children, app, count⟩ =>
    let collapsed := collapseAll children
    if name = "" then collapsed
    else if count = 1 then collapsed
    else
      match collapsed with
      | [k] =>
        if d = k.DurationNS then
          if app = true ∧ k.IsApplication = false then
            [⟨d, e, fp, line, name, id, pkg, path, start, k.Children, app, count⟩]
          else [k]
        else [⟨d, e, fp, line, name, id, pkg, path, start, collapsed, app, count⟩]
      | _ => [⟨d, e, fp, line, name, id, pkg, path, start, collapsed, app, count⟩]
/-- Modelled from the spec: Collapse of a forest-root list or of a child list
(section 4.3), the concatenation of the replacement sequences of its nodes. -/
def collapseAll : List Node → List Node
  | [] => []
  | n :: ns => n.Collapse ++ collapseAll ns
end

mutual
/-- The nodes of a tree: the node itself, then those of its subtrees. -/
def Node.nodes : Node → List Node
  | ⟨d, e, fp, line, name, id, pkg, path, start, children, app, count⟩ =>
    ⟨d, e, fp, line, name, id, pkg, path, start, children, app, count⟩ :: nodesOf children
/-- The nodes of the trees of a forest. -/
def nodesOf : List Node → List Node
  | [] => []
  | n :: ns => n.nodes ++ nodesOf ns
end

mutual
/-- A tree on which no rule of section 4.3 applies any more: every node has a
name and a sample count other than one, and no node has a sole child of its
own duration. -/
def Node.Collapsed : Node → Prop
  | ⟨d, _, _, _, name, _, _, _, _, children, _, count⟩ =>
    name ≠ "" ∧ count ≠ 1 ∧ (∀ k, children = [k] → k.DurationNS ≠ d) ∧ allCollapsed children
/-- Every tree of the forest is `Collapsed`. -/
def allCollapsed : List Node → Prop
  | [] => True
  | n :: ns => n.Collapsed ∧ allCollapsed ns
end

end nodetree

/-! ## `internal/sample/profile.go` -/

namespace sample

/-- The struct `sample.Sample`. -/
structure Sample where
  RelativeTimestampNS : Int
  StackID : Int
deriving Repr

/-- The struct `sample.Frame`. -/
structure Frame where
  Function : String
  InstructionAddr : String
  Line : Int
deriving Repr

/-- The struct `sample.Trace`. -/
structure Trace where
  Frames : List Frame
  Samples : List Sample
  Stacks : List (List Int)
deriving Repr

/-- The struct `sample.Profile`, without the descriptive fields that no
operation below reads (`DebugMeta`, `Device`, `OS`, `Runtime`, `Received`,
`Timestamp`). -/
structure Profile where
  Environment : String
  EventID : String
  OrganizationID : Nat
  Platform : String
  ProjectID : Nat
  Release : String
  Trace : Trace
deriving Repr

/-- A value of Go's `map[uint64][]*nodetree.Node`. -/
abbrev CallTreeMap : Type := List (Nat × List nodetree.Node)

/-- The map read `m[k]`: the forest stored under `k`, the nil slice when the
key is missing. -/
def CallTreeMap.index (m : CallTreeMap) (k : Nat) : List nodetree.Node :=
  (m.lookup k).getD []

/-- `(p Profile).CallTrees()`: a fresh empty map and a nil error, whatever
the profile holds. -/
def Profile.CallTrees (_p : Profile) : CallTreeMap × Option String :=
  ([], none)

/-- `(p Profile).GetID()`. -/
def Profile.GetID (p : Profile) : String := p.EventID

/-- The frame at index `i` of the frame table, if `i` is in range. -/
def Trace.frameAt (t : Trace) (i : Int) : Option Frame :=
  if 0 ≤ i then t.Frames.get? i.toNat else none

/-- The call path of a sample, root first: the function names of the frames
of its stack, which the trace lists leaf first. `none` when the stack index
or one of the frame indices is out of range. -/
def Trace.callPath (t : Trace) (s : Sample) : Option (List String) :=
  if 0 ≤ s.StackID then
    match t.Stacks.get? s.StackID.toNat with
    | none => none
    | some stack =>
      (stack.reverse.mapM (fun i => t.frameAt i)).map (fun fs => fs.map Frame.Function)
  else none

end sample

/-! ## `internal/profile/profile.go` -/

namespace profile

/-- The implementations of `profileInterface`. `LegacyProfile` is not among
the sources: of a legacy profile only what its `CallTrees` returns is kept. -/
inductive profileInterface where
  | sampleProfile (p : sample.Profile)
  | legacyProfile (id : String) (callTrees : sample.CallTreeMap × Option String)

/-- The struct `profile.Profile`. -/
structure Profile where
  profile : profileInterface

/-- `New(p)`. -/
def New (p : profileInterface) : Profile := { profile := p }

/-- `(p *Profile).CallTrees()`: the call is forwarded to the wrapped profile. -/
def Profile.CallTrees (p : Profile) : sample.CallTreeMap × Option String :=
  match p.profile with
  | .sampleProfile s => s.CallTrees
  | .legacyProfile _ r => r

/-- `(p *Profile).ID()`: forwarded to `GetID` of the wrapped profile. -/
def Profile.ID (p : Profile) : String :=
  match p.profile with
  | .sampleProfile s => s.GetID
  | .legacyProfile id _ => id

end profile

/-! ## The call-tree builder of the specification -/

namespace spec

/-- Modelled from the spec: the frame identity of section 3, as the fixture of
`flamegraph_test.go` writes it (`frame.Frame` is not among the sources). -/
structure Frame where
  Function : String
  Package : String
  Path : String
  Line : Nat
  InApp : Bool
deriving Repr

/-- Modelled from the spec: one timestamped sample of the fixture, naming its
stack by index. -/
structure Sample where
  ElapsedSinceStartNS : Nat
  StackID : Nat
deriving Repr

/-- Modelled from the spec: the trace of one execution context, a frame
table, a table of stacks (lists of frame indices, leaf first) and the samples
in arrival order. -/
structure Trace where
  Frames : List Frame
  Stacks : List (List Nat)
  Samples : List Sample
deriving Repr

/-- The failures of section 7 that the builder can report. -/
inductive BuildError where
  | MalformedTraceError
deriving Repr, DecidableEq

/-- Modelled from the spec: the node created for a frame first seen at
timestamp `ts` (section 4.2): the frame's identity with the package reduced to
its base name, the fingerprint of the path so far, a span initialized to the
timestamp, and a sample count of one. -/
def newNode (f : Frame) (fingerprint ts : Nat) (children : List nodetree.Node) :
    nodetree.Node :=
  { DurationNS := 0
    EndNS := ts
    Fingerprint := fingerprint
    Line := f.Line
    Name := f.Function
    ID := fingerprint
    Package := calltree.ImageBaseName f.Package
    Path := f.Path
    StartNS := ts
    Children := children
    IsApplication := f.InApp
    SampleCount := 1 }

/-- The frame identity test of section 3: image and name match. -/
def sameFrame (f : Frame) (n : nodetree.Node) : Bool :=
  n.Package == calltree.ImageBaseName f.Package && n.Name == f.Function

/-- Modelled from the spec: one step of the algorithm of section 4.2, the
insertion of the call path `path` (root first) of a sample taken at `ts` into
the child list `forest` of the current trie node. At each depth the child
matching the frame is looked up; if found, its sample count is incremented
and its span is extended to include `ts`; if absent a new child is appended;
the walk then descends into that child. `sofar` is the path walked so far,
leaf first, and `hash` the fingerprint function. -/
def insertPath (hash : List Frame → Nat) (ts : Nat) :
    List Frame → List Frame → List nodetree.Node → List nodetree.Node
  | [], _, forest => forest
  | f :: rest, sofar, forest =>
    match forest.findIdx? (sameFrame f), forest.find? (sameFrame f) with
    | some i, some n =>
      let start := min n.StartNS ts
      let end_ := max n.EndNS ts
      forest.set i
        { n with
          StartNS := start
          EndNS := end_
          DurationNS := end_ - start
          SampleCount := n.SampleCount + 1
          Children := insertPath hash ts rest (f :: sofar) n.Children }
    | _, _ =>
      forest ++ [newNode f (hash (f :: sofar)) ts (insertPath hash ts rest (f :: sofar) [])]

/-- The frames of a stack, root first; a frame index outside the frame table
is a malformed trace. -/
def resolveStack (t : Trace) (stack : List Nat) : Except BuildError (List Frame) :=
  stack.reverse.mapM (fun i =>
    match t.Frames.get? i with
    | some f => Except.ok f
    | none => Except.error BuildError.MalformedTraceError)

/-- Modelled from the spec: the CallTreeBuilder of section 4.2 for one
execution context. The samples are inserted in arrival order into a trie that
starts empty; a stack index or frame index out of range aborts the
construction with `MalformedTraceError`; an empty stack adds no node. -/
def CallTreeBuilder (hash : List Frame → Nat) (t : Trace) :
    Except BuildError (List nodetree.Node) :=
  t.Samples.foldlM (fun forest s =>
    match t.Stacks.get? s.StackID with
    | none => Except.error BuildError.MalformedTraceError
    | some stack =>
      (resolveStack t stack).map (fun path =>
        insertPath hash s.ElapsedSinceStartNS path [] forest)) []

end spec

/-! ## `internal/speedscope` and `internal/flamegraph` (known from the test) -/

namespace speedscope

/-- The struct `speedscope.Frame`, with the fields the expected output of
`flamegraph_test.go` sets. -/
structure Frame where
  Image : String
  IsApplication : Bool
  Name : String
deriving Repr, DecidableEq

/-- The struct `speedscope.SampledProfile`, with the fields the expected
output of `flamegraph_test.go` sets. -/
structure SampledProfile where
  EndValue : Nat
  IsMainThread : Bool
  Samples : List (List Nat)
  SamplesProfiles : List (List Nat)
  Type_ : String
  Unit_ : String
  Weights : List Nat
deriving Repr, DecidableEq

/-- The struct `speedscope.SharedData`. -/
structure SharedData where
  Frames : List Frame
  ProfileIDs : List String
deriving Repr, DecidableEq

/-- The struct `speedscope.Output`. -/
structure Output where
  Profiles : List SampledProfile
  Shared : SharedData
deriving Repr, DecidableEq

end speedscope

namespace flamegraph

/-- Modelled from the spec: a node of the merged flamegraph forest. It carries
the frame identity, the accumulated sample count of the call path that ends
at it, and the indices of the profiles that contributed a sample ending
exactly there, in first-contribution order (section 4.4). -/
structure FlameNode where
  Name : String
  Package : String
  IsApplication : Bool
  SampleCount : Nat
  ProfileIDs : List Nat
  Children : List FlameNode
deriving Repr

/-- Modelled from the spec: the state of the FlamegraphAggregator of section
4.4, the merged forest and the profile identifiers in input order. -/
structure Flamegraph where
  Trees : List FlameNode
  ProfileIDs : List String
deriving Repr

/-- The aggregator before any profile is added. -/
def Flamegraph.empty : Flamegraph := { Trees := [], ProfileIDs := [] }

/-- The origin set `ids` after a contribution of `self` samples by the profile
of index `pi`: the index is inserted at most once, at the end. -/
def addOrigin (ids : List Nat) (pi self : Nat) : List Nat :=
  if 0 < self ∧ pi ∉ ids then ids ++ [pi] else ids

mutual
/-- Modelled from the spec: the merge of one call-tree node into a list of
flamegraph nodes (section 4.4). The node whose `(image, name)` identity
matches accumulates the sample count and, when the call-tree node has samples
of its own beyond those of its children, the profile index; its children
are merged in turn. Without a match a new flamegraph node is appended. -/
def addNode (pi : Nat) : nodetree.Node → List FlameNode → List FlameNode
  | ⟨_, _, _, _, name, _, pkg, _, _, children, app, count⟩, ft =>
    let self := count - (children.map nodetree.Node.SampleCount).sum
    match ft.findIdx? (fun g => g.Package == pkg && g.Name == name),
          ft.find? (fun g => g.Package == pkg && g.Name == name) with
    | some i, some g =>
      ft.set i
        { g with
          SampleCount := g.SampleCount + count
          ProfileIDs := addOrigin g.ProfileIDs pi self
          Children := addForest pi children g.Children }
    | _, _ =>
      ft ++ [{ Name := name
               Package := pkg
               IsApplication := app
               SampleCount := count
               ProfileIDs := addOrigin [] pi self
               Children := addForest pi children [] }]
/-- Modelled from the spec: the merge of a call-tree forest, node by node in
order, into a list of flamegraph nodes. -/
def addForest (pi : Nat) : List nodetree.Node → List FlameNode → List FlameNode
  | [], ft => ft
  | n :: ns, ft => addForest pi ns (addNode pi n ft)
end

/-- Modelled from the spec: `addCallTreeToFlamegraph` is called by
`flamegraph_test.go` but is not among the sources. Section 4.4: the profile
identifier is appended to `profileIDs` whether or not the profile contributes
a path, and the forest is merged under the index the identifier received. -/
def addCallTreeToFlamegraph (fg : Flamegraph) (callTree : List nodetree.Node)
    (profileID : String) : Flamegraph :=
  { Trees := addForest fg.ProfileIDs.length callTree fg.Trees
    ProfileIDs := fg.ProfileIDs ++ [profileID] }

/-- The encoder's working state: the shared frame table and the three
parallel sequences of the sampled profile, with the running end value. -/
structure Encoder where
  frames : List speedscope.Frame
  samples : List (List Nat)
  sampleProfiles : List (List Nat)
  weights : List Nat
  endValue : Nat
deriving Repr

/-- The encoder before any node is visited. -/
def Encoder.empty : Encoder :=
  { frames := [], samples := [], sampleProfiles := [], weights := [], endValue := 0 }

/-- One aggregated sample entry is appended: its stack, its weight and its
origin set; the end value grows by the weight. -/
def Encoder.addSample (f : Encoder) (stack : List Nat) (count : Nat)
    (profileIDs : List Nat) : Encoder :=
  { f with
    samples := f.samples ++ [stack]
    sampleProfiles := f.sampleProfiles ++ [profileIDs]
    weights := f.weights ++ [count]
    endValue := f.endValue + count }

/-- The frame-table index of the identity `(image, name)`, the frame being
inserted at the end of the table when it is seen for the first time. -/
def Encoder.frameIndex (f : Encoder) (fr : speedscope.Frame) : Nat × Encoder :=
  match f.frames.findIdx? (fun g => g.Image == fr.Image && g.Name == fr.Name) with
  | some i => (i, f)
  | none => (f.frames.length, { f with frames := f.frames ++ [fr] })

/-- The encoder invariant of section 3: the three sequences are parallel and
the end value is the sum of the weights. -/
def Encoder.Parallel (f : Encoder) : Prop :=
  f.samples.length = f.weights.length ∧ f.weights.length = f.sampleProfiles.length ∧
    f.endValue = f.weights.sum

mutual
/-- Modelled from the spec: the walk of one flamegraph tree by the encoder
(sections 4.4 and 4.5). The node's frame index is pushed on the current
stack, root first; a leaf emits the stack with its sample count; an inner
node first lets its children emit theirs, then emits the stack with the
samples that end at the node itself, if there are any. This is the order of
the entries in the worked scenario of section 8, which section 9 makes the
normative one. -/
def visitCalltree : FlameNode → List Nat → Encoder → Encoder
  | ⟨name, pkg, app, count, ids, children⟩, currentStack, f =>
    let r := f.frameIndex { Image := pkg, IsApplication := app, Name := name }
    let stack := currentStack ++ [r.1]
    match children with
    | [] => r.2.addSample stack count ids
    | c :: cs =>
      let f2 := visitAll (c :: cs) stack r.2
      let diff := count - ((c :: cs).map FlameNode.SampleCount).sum
      if 0 < diff then f2.addSample stack diff ids else f2
/-- The walk of a list of flamegraph trees, in order. -/
def visitAll : List FlameNode → List Nat → Encoder → Encoder
  | [], _, f => f
  | n :: ns, currentStack, f => visitAll ns currentStack (visitCalltree n currentStack f)
end

/-- Modelled from the spec: `toSpeedscope` is called by `flamegraph_test.go`
but is not among the sources. Sections 4.5 and 6: the merged forest is walked
tree by tree from an empty stack, and the result is one sampled profile of
unit `count`, marked as main thread, over the shared frame table and the
profile identifiers. The second argument of the call in the test, `1`, has no
counterpart in the spec and is left out. -/
def toSpeedscope (fg : Flamegraph) : speedscope.Output :=
  let f := visitAll fg.Trees [] Encoder.empty
  { Profiles :=
      [{ EndValue := f.endValue
         IsMainThread := true
         Samples := f.samples
         SamplesProfiles := f.sampleProfiles
         Type_ := "sampled"
         Unit_ := "count"
         Weights := f.weights }]
    Shared := { Frames := f.frames, ProfileIDs := fg.ProfileIDs } }

/-- The aggregation of an ordered sequence of `(profileID, forest)` inputs. -/
def aggregate (inputs : List (String × List nodetree.Node)) : Flamegraph :=
  inputs.foldl (fun fg x => addCallTreeToFlamegraph fg x.2 x.1) Flamegraph.empty

/-- The loop of `TestFlamegraphSpeedscopeGeneration`: each profile is wrapped
by `profile.New`, its call trees are built, a build error stops the run, and
the forest of execution context `0` is added under the profile's ID; the
merged flamegraph is then encoded. -/
def generate (profiles : List sample.Profile) : Except String speedscope.Output :=
  (profiles.foldlM (fun ft sp =>
    let p := profile.New (.sampleProfile sp)
    match p.CallTrees with
    | (callTrees, none) => Except.ok (addCallTreeToFlamegraph ft (callTrees.index 0) p.ID)
    | (_, some err) => Except.error err) Flamegraph.empty).map toSpeedscope

/-- The same loop over the call-tree builder of the specification, for
profiles given by their identifier and trace. -/
def generateWith (hash : List spec.Frame → Nat) (profiles : List (String × spec.Trace)) :
    Except spec.BuildError speedscope.Output :=
  (profiles.foldlM (fun ft sp =>
    (spec.CallTreeBuilder hash sp.2).map (fun callTree =>
      addCallTreeToFlamegraph ft callTree sp.1)) Flamegraph.empty).map toSpeedscope

end flamegraph

/-! ## Fixtures of the test files -/

namespace fixtures

/-- A node literal of `nodetree_test.go`, its fields in the order of the
literal; `Fingerprint` and `Line` are `0` in every literal of the file. -/
def testNode (duration end_ : Nat) (app : Bool) (name package path : String)
    (count start : Nat) (children : List nodetree.Node) : nodetree.Node :=
  { DurationNS := duration
    EndNS := end_
    Fingerprint := 0
    Line := 0
    Name := name
    ID := 0
    Package := package
    Path := path
    StartNS := start
    Children := children
    IsApplication := app
    SampleCount := count }

/-- The input of the case "collapse single sample". -/
def singleSample : nodetree.Node :=
  testNode 4 4 true "root" "package" "path" 4 0
    [ testNode 1 1 true "child1" "package" "path" 1 0 [],
      testNode 1 2 true "child2" "package" "path" 1 1 [],
      testNode 2 4 true "child3" "package" "path" 2 2 [] ]

/-- The expected output of the case "collapse single sample". -/
def singleSampleWant : List nodetree.Node :=
  [ testNode 4 4 true "root" "package" "path" 4 0
      [ testNode 2 4 true "child3" "package" "path" 2 2 [] ] ]

/-- The input of the case "nested nodes, all unknown name". -/
def allUnknown : nodetree.Node :=
  testNode 10 10 true "" "" "" 1 0
    [ testNode 5 5 true "" "" "" 1 0
        [ testNode 5 5 true "" "" "" 1 0
            [ testNode 5 5 false "" "" "" 1 0 [] ] ],
      testNode 10 10 false "" "" "" 1 5 [] ]

/-- The child of the case "single child collapse child because parent is
application". -/
def systemChild : nodetree.Node :=
  testNode 10 10 false "child" "package" "path" 10 0 []

/-- The input of the case "single child collapse child because parent is
application". -/
def applicationParent : nodetree.Node :=
  testNode 10 10 true "root" "package" "path" 10 0 [systemChild]

/-- The input of the case "collapse deeply nested node". -/
def deeplyNested : nodetree.Node :=
  testNode 10 10 true "root" "package" "path" 10 0
    [ testNode 5 5 false "child1-1" "package" "path" 5 0
        [ testNode 5 5 true "child2-1" "package" "path" 5 0
            [ testNode 5 5 false "child3-1" "package" "path" 5 0 [] ] ],
      testNode 5 10 false "child1-2" "package" "path" 5 5
        [ testNode 5 10 true "" "" "" 5 5
            [ testNode 5 10 false "child3-1" "package" "path" 5 5 [] ] ] ]

/-- The expected output of the case "collapse deeply nested node". -/
def deeplyNestedWant : List nodetree.Node :=
  [ testNode 10 10 true "root" "package" "path" 10 0
      [ testNode 5 5 true "child2-1" "package" "path" 5 0 [],
        testNode 5 10 false "child3-1" "package" "path" 5 5 [] ] ]

/-- The sample-format profile "ab1" of `flamegraph_test.go`, in the types of
`internal/sample/profile.go`: frames a, b, c; stacks [b, a], [c], [a]; samples
on stacks 0, 1, 0, 2 at 0, 10, 20, 30 ns. -/
def ab1 : sample.Profile :=
  { Environment := "", EventID := "ab1", OrganizationID := 0, Platform := "cocoa",
    ProjectID := 0, Release := "",
    Trace :=
      { Frames := [⟨"a", "", 0⟩, ⟨"b", "", 0⟩, ⟨"c", "", 0⟩]
        Stacks := [[1, 0], [2], [0]]
        Samples := [⟨0, 0⟩, ⟨10, 1⟩, ⟨20, 0⟩, ⟨30, 2⟩] } }

/-- The sample-format profile "cd2" of `flamegraph_test.go`: frames a, c, e,
b; stacks [a, c], [e], [b, a]; samples on stacks 0, 1, 2. -/
def cd2 : sample.Profile :=
  { Environment := "", EventID := "cd2", OrganizationID := 0, Platform := "cocoa",
    ProjectID := 0, Release := "",
    Trace :=
      { Frames := [⟨"a", "", 0⟩, ⟨"c", "", 0⟩, ⟨"e", "", 0⟩, ⟨"b", "", 0⟩]
        Stacks := [[0, 1], [2], [3, 0]]
        Samples := [⟨0, 0⟩, ⟨10, 1⟩, ⟨20, 2⟩] } }

/-- A frame of the fixture: package "test.package", no path, no line. -/
def frame (function : String) (inApp : Bool) : spec.Frame :=
  { Function := function, Package := "test.package", Path := "", Line := 0, InApp := inApp }

/-- The trace of "ab1" with the frame fields of the fixture. -/
def ab1Trace : spec.Trace :=
  { Frames := [frame "a" false, frame "b" false, frame "c" true]
    Stacks := [[1, 0], [2], [0]]
    Samples := [⟨0, 0⟩, ⟨10, 1⟩, ⟨20, 0⟩, ⟨30, 2⟩] }

/-- The trace of "cd2" with the frame fields of the fixture. -/
def cd2Trace : spec.Trace :=
  { Frames := [frame "a" false, frame "c" true, frame "e" false, frame "b" false]
    Stacks := [[0, 1], [2], [3, 0]]
    Samples := [⟨0, 0⟩, ⟨10, 1⟩, ⟨20, 2⟩] }

/-- The expected output of `TestFlamegraphSpeedscopeGeneration`. -/
def want : speedscope.Output :=
  { Profiles :=
      [{ EndValue := 7
         IsMainThread := true
         Samples := [[0, 1], [0], [2, 0], [2], [3]]
         SamplesProfiles := [[0, 1], [0], [1], [0], [1]]
         Type_ := "sampled"
         Unit_ := "count"
         Weights := [3, 1, 1, 1, 1] }]
    Shared :=
      { Frames :=
          [ { Image := "test.package", IsApplication := false, Name := "a" },
            { Image := "test.package", IsApplication := false, Name := "b" },
            { Image := "test.package", IsApplication := true, Name := "c" },
            { Image := "test.package", IsApplication := false, Name := "e" } ]
        ProfileIDs := ["ab1", "cd2"] } }

/-- What the encoder returns for a flamegraph without any tree, over the two
profile identifiers. -/
def emptyOutput : speedscope.Output :=
  { Profiles :=
      [{ EndValue := 0
         IsMainThread := true
         Samples := []
         SamplesProfiles := []
         Type_ := "sampled"
         Unit_ := "count"
         Weights := [] }]
    Shared := { Frames := [], ProfileIDs := ["ab1", "cd2"] } }

end fixtures

/-! ## `encoding/json` (standard library): how `Unmarshal` reaches a custom unmarshaler -/

namespace json

/-- What `json.Unmarshal(b, v)` finds in the input `b` before it stores
anything: a syntax error (reported by its validity check), the literal
`null`, or a value, whose bytes `item` (the input without the surrounding
white space) it hands on. -/
inductive Scan where
  | syntaxError (err : String)
  | null
  | value (item : String)
deriving Repr, DecidableEq

/-- `json.Unmarshal(b, &p)` for a non-nil pointer `p` whose type implements
`json.Unmarshaler`; `scan` is the decoder's scanner and `unmarshalJSON` the
method of `p`. A syntax error is returned as such. For `null` the pointer
`p`, reached through `&p`, is set to nil and nil is returned. For any other
value the decoder walks the pointers of the target, finds that `p`
implements `Unmarshaler`, and returns what `p.UnmarshalJSON(item)` returns.
The result is `none` when that call does not return. -/
def Unmarshal (scan : String → Scan) (unmarshalJSON : String → Option (Option String))
    (b : String) : Option (Option String) :=
  match scan b with
  | .syntaxError err => some (some err)
  | .null => some none
  | .value item => unmarshalJSON item

end json

/-! ## `internal/sample/profile.go`: storage paths and decoding -/

namespace sample

/-- `strings.Replace(s, "-", "", -1)`: every `-` is removed. -/
def removeDashes (s : String) : String :=
  String.mk (s.data.filter (fun c => c != '-'))

/-- `StoragePath(organizationID, projectID, profileID)`:
`fmt.Sprintf("%d/%d/%s", ...)` over the two numbers in decimal and the profile
ID without its dashes. -/
def StoragePath (organizationID projectID : Nat) (profileID : String) : String :=
  Nat.repr organizationID ++ "/" ++ Nat.repr projectID ++ "/" ++ removeDashes profileID

/-- `(p Profile).StoragePath()`. -/
def Profile.StoragePath (p : Profile) : String :=
  sample.StoragePath p.OrganizationID p.ProjectID p.EventID

/-- The number a string of decimal digits denotes. -/
def decimalValue (ds : List Char) : Nat :=
  ds.foldl (fun acc c => acc * 10 + (c.toNat - 48)) 0

/-- The trace has a stack that references a frame index outside the frame
table, or a sample that references a stack index outside the stack table. -/
def Trace.malformed (t : Trace) : Bool :=
  t.Stacks.any (fun stack =>
    stack.any (fun i => decide (i < 0 ∨ (t.Frames.length : Int) ≤ i))) ||
  t.Samples.any (fun s => decide (s.StackID < 0 ∨ (t.Stacks.length : Int) ≤ s.StackID))

/-- `(p *Profile).UnmarshalJSON(b)`, whose body is `return json.Unmarshal(b, &p)`
with `p` the receiver, a `*Profile`. The call is given `fuel` nested calls of
the method; `none` means that the fuel ran out before the call returned,
`some e` that it returned the error `e` (`none` for nil). -/
def Profile.UnmarshalJSON (scan : String → json.Scan) :
    Nat → String → Option (Option String)
  | 0, _ => none
  | fuel + 1, b => json.Unmarshal scan (Profile.UnmarshalJSON scan fuel) b

end sample

/-! ## `internal/profile/profile.go`: the choice of the profile format -/

namespace profile

/-- The struct `version`. -/
structure version where
  Version : String
deriving Repr, DecidableEq

/-- The implementation that `UnmarshalJSON` stores in `p.profile`:
`new(LegacyProfile)` or `new(sample.Profile)`. -/
inductive Variant where
  | LegacyProfile
  | SampleProfile
deriving Repr, DecidableEq

/-- What decoding a document into a struct leaves in a string field tagged
`json:"version"`: the string of the document, or the zero value `""` when the
document has no such key. -/
def decodedVersion (field : Option String) : String := field.getD ""

/-- The `switch v.Version` of `(p *Profile).UnmarshalJSON`: `case ""` selects
the legacy profile, `default` the sample profile. -/
def selectVariant (v : version) : Variant :=
  match v.Version with
  | "" => Variant.LegacyProfile
  | _ => Variant.SampleProfile

/-- The first statement of `(p *Profile).UnmarshalJSON`, `json.Unmarshal(b, &v)`
with `v` a zero `version`: a syntax error is returned; the literal `null`
leaves `v` as it is; any other value is decoded into the struct, where
`versionOf item` is what the decoder finds under the key `version` (`none`
when the key is absent) or the error it reports (the value is not an object,
or the key does not hold a string). -/
def unmarshalVersion (scan : String → json.Scan)
    (versionOf : String → Except String (Option String)) (b : String) :
    Except String version :=
  match scan b with
  | .syntaxError err => Except.error err
  | .null => Except.ok { Version := "" }
  | .value item =>
    match versionOf item with
    | .error err => Except.error err
    | .ok field => Except.ok { Version := decodedVersion field }

/-- The last statement of `(p *Profile).UnmarshalJSON`,
`json.Unmarshal(b, &p.profile)`, with the interface `p.profile` holding the
fresh pointer of the variant `held`. The result is what `p.profile` holds
afterwards (`none` for a nil interface) and what the call returns (`none` when
it does not return within `fuel` nested calls). A syntax error is returned and
the interface is left alone. For the literal `null` the decoder stops at the
interface, which it can set, and sets it to nil. For any other value it loads
the pointer from the interface and decodes into it: a `*sample.Profile`
implements `json.Unmarshaler`, so its `UnmarshalJSON` is called with the bytes
of the value; the decoding of a legacy profile, which is not among the
sources, is the parameter `legacy`. -/
def unmarshalProfile (scan : String → json.Scan) (legacy : String → Option (Option String))
    (fuel : Nat) (held : Variant) (b : String) : Option Variant × Option (Option String) :=
  match scan b with
  | .syntaxError err => (some held, some (some err))
  | .null => (none, some none)
  | .value item =>
    match held with
    | Variant.LegacyProfile => (some held, legacy item)
    | Variant.SampleProfile => (some held, sample.Profile.UnmarshalJSON scan fuel item)

/-- `(p *Profile).UnmarshalJSON(b)`: the document is decoded into a `version`;
an error of that decoding is returned with `p.profile` as it was (`before`);
otherwise the switch stores the selected variant in `p.profile` and the
document is decoded into it. The result is what `p.profile` holds afterwards
and what the call returns. -/
def Profile.UnmarshalJSON (scan : String → json.Scan)
    (versionOf : String → Except String (Option String))
    (legacy : String → Option (Option String)) (fuel : Nat) (before : Option Variant)
    (b : String) : Option Variant × Option (Option String) :=
  match unmarshalVersion scan versionOf b with
  | .error err => (before, some (some err))
  | .ok v => unmarshalProfile scan legacy fuel (selectVariant v) b

end profile

/-! ## `cmd/vroom/profile.go` -/

namespace vroom

end vroom

/-! ## Further fixtures -/

namespace fixtures

/-- A profile whose only stack references frame 5 of a one-frame table. -/
def malformedFrame : sample.Profile :=
  { Environment := "", EventID := "ef3", OrganizationID := 1, Platform := "cocoa",
    ProjectID := 2, Release := "",
    Trace := { Frames := [⟨"a", "", 0⟩], Stacks := [[5]], Samples := [⟨0, 0⟩] } }

/-- A profile whose only sample references stack 3 of a one-stack table. -/
def malformedStack : sample.Profile :=
  { Environment := "", EventID := "ef4", OrganizationID := 1, Platform := "cocoa",
    ProjectID := 2, Release := "",
    Trace := { Frames := [⟨"a", "", 0⟩], Stacks := [[0]], Samples := [⟨0, 3⟩] } }

/-- A profile without samples. -/
def noSamples : sample.Profile :=
  { Environment := "", EventID := "ef5", OrganizationID := 1, Platform := "cocoa",
    ProjectID := 2, Release := "",
    Trace := { Frames := [⟨"a", "", 0⟩], Stacks := [[0]], Samples := [] } }

/-- The input of the case "single child no collapse - duration mismatch". -/
def durationMismatch : nodetree.Node :=
  testNode 10 10 true "root" "package" "path" 10 0
    [ testNode 5 5 true "child" "package" "path" 5 0 [] ]

/-- The input of the case "multiple children no collapse". -/
def multipleChildren : nodetree.Node :=
  testNode 10 10 true "root" "package" "path" 10 0
    [ testNode 5 5 true "child1" "package" "path" 5 0 [],
      testNode 5 10 true "child2" "package" "path" 5 5 [] ]

/-- A scanner that takes every input for a value spanning the whole input. -/
def scanValue (b : String) : json.Scan := json.Scan.value b

/-- A document with the version `1`. -/
def versionOneDocument : String := "\x7b\"version\":\"1\"\x7d"

/-- The decoding of the key `version` for the two documents used below: the
document with the version `1`, and the empty object; any other value is
reported as not decodable. -/
def versionOf (item : String) : Except String (Option String) :=
  if item = versionOneDocument then Except.ok (some "1")
  else if item = "\x7b\x7d" then Except.ok none
  else Except.error "json: cannot unmarshal into Go value of type version"

end fixtures

/-! # Theorems -/

/-! ## Auxiliary facts on `uint64` subtraction and on the collapser -/

namespace nodetree

/-- The `uint64` difference is the integer difference reduced modulo `2 ^ 64`. -/
theorem sub64_eq_int (a b : Nat) (hb : b < u64) :
    ((sub64 a b : Nat) : Int) = ((a : Int) - (b : Int)) % (2 ^ 64 : Int) := by
  unfold sub64 u64 at *
  rw [Nat.mod_eq_of_lt hb]
  omega

/-- Without borrow the `uint64` difference is the plain difference. -/
theorem sub64_of_le (a b : Nat) (hab : b ≤ a) (ha : a < u64) : sub64 a b = a - b := by
  unfold sub64 u64 at *
  rw [Nat.mod_eq_of_lt (lt_of_le_of_lt hab ha)]
  omega

/-- A forest is collapsed when each of its trees is. -/
theorem allCollapsed_iff (l : List Node) : allCollapsed l ↔ ∀ n ∈ l, n.Collapsed := by
  induction l with
  | nil => simp [allCollapsed]
  | cons a l ih => simp [allCollapsed, ih]

/-- Collapsing a forest distributes over concatenation. -/
theorem collapseAll_append (a b : List Node) :
    collapseAll (a ++ b) = collapseAll a ++ collapseAll b := by
  induction a with
  | nil => simp [collapseAll]
  | cons x a ih => simp [collapseAll, ih]

/-- The nodes of a concatenation of forests. -/
theorem nodesOf_append (a b : List Node) : nodesOf (a ++ b) = nodesOf a ++ nodesOf b := by
  induction a with
  | nil => simp [nodesOf]
  | cons x a ih => simp [nodesOf, ih]

/-- What `Collapsed` says about the child list of a node. -/
theorem Collapsed_children (k : Node) (h : k.Collapsed) :
    allCollapsed k.Children ∧ ∀ j, k.Children = [j] → j.DurationNS ≠ k.DurationNS := by
  cases k
  simp only [Node.Collapsed] at h
  exact ⟨h.2.2.2, h.2.2.1⟩

mutual
/-- Every tree that `Collapse` returns is collapsed. -/
theorem Collapse_allCollapsed : ∀ n : Node, allCollapsed n.Collapse
  | ⟨d, e, fp, line, name, id, pkg, path, start, children, app, count⟩ => by
    have ih := collapseAll_allCollapsed children
    simp only [Node.Collapse]
    split_ifs with h1 h2
    · exact ih
    · exact ih
    · split
      · rename_i k hk
        have ihk := ih
        rw [hk] at ihk
        have hkc : k.Collapsed := by simpa [allCollapsed] using ihk
        split_ifs with h3 h4
        · have := Collapsed_children k hkc
          simp only [allCollapsed, Node.Collapsed, and_true]
          refine ⟨h1, h2, ?_, this.1⟩
          intro j hj
          rw [h3]
          exact this.2 j hj
        · exact ihk
        · simp only [allCollapsed, Node.Collapsed, and_true]
          refine ⟨h1, h2, ?_, ih⟩
          intro j hj
          rw [hk] at hj
          simp only [List.cons.injEq, and_true] at hj
          subst hj
          exact fun h => h3 h.symm
      · rename_i hne
        simp only [allCollapsed, Node.Collapsed, and_true]
        refine ⟨h1, h2, ?_, ih⟩
        intro j hj
        exact absurd hj (hne j)
/-- Every tree of a collapsed forest is collapsed. -/
theorem collapseAll_allCollapsed : ∀ l : List Node, allCollapsed (collapseAll l)
  | [] => by simp [collapseAll, allCollapsed]
  | n :: ns => by
    have h1 := Collapse_allCollapsed n
    have h2 := collapseAll_allCollapsed ns
    simp only [collapseAll]
    rw [allCollapsed_iff] at *
    intro m hm
    rcases List.mem_append.1 hm with h | h
    · exact h1 m h
    · exact h2 m h
end

/-- A node is among the nodes of its own tree. -/
theorem Node.mem_nodes_self (n : Node) : n ∈ n.nodes := by
  cases n
  simp [Node.nodes]

mutual
/-- Every node of a collapsed tree has a name and a sample count other than
one. -/
theorem Collapsed_nodes : ∀ n : Node, n.Collapsed →
    ∀ m ∈ n.nodes, m.Name ≠ "" ∧ m.SampleCount ≠ 1
  | ⟨d, e, fp, line, name, id, pkg, path, start, children, app, count⟩, h, m, hm => by
    simp only [Node.Collapsed] at h
    simp only [Node.nodes, List.mem_cons] at hm
    rcases hm with rfl | hm
    · exact ⟨h.1, h.2.1⟩
    · exact allCollapsed_nodes children h.2.2.2 m hm
/-- The same for the nodes of a collapsed forest. -/
theorem allCollapsed_nodes : ∀ l : List Node, allCollapsed l →
    ∀ m ∈ nodesOf l, m.Name ≠ "" ∧ m.SampleCount ≠ 1
  | [], _, m, hm => by simp [nodesOf] at hm
  | n :: ns, h, m, hm => by
    simp only [allCollapsed] at h
    simp only [nodesOf, List.mem_append] at hm
    rcases hm with hm | hm
    · exact Collapsed_nodes n h.1 m hm
    · exact allCollapsed_nodes ns h.2 m hm
end

mutual
/-- A collapsed tree is its own replacement sequence. -/
theorem Collapse_of_Collapsed : ∀ n : Node, n.Collapsed → n.Collapse = [n]
  | ⟨d, e, fp, line, name, id, pkg, path, start, children, app, count⟩, h => by
    simp only [Node.Collapsed] at h
    have ih := collapseAll_of_allCollapsed children h.2.2.2
    simp only [Node.Collapse, ih, if_neg h.1, if_neg h.2.1]
    split
    · rename_i c k
      rw [if_neg (fun hd => h.2.2.1 k rfl hd.symm)]
    · rfl
/-- A collapsed forest is a fixed point of the collapser. -/
theorem collapseAll_of_allCollapsed : ∀ l : List Node, allCollapsed l → collapseAll l = l
  | [], _ => by simp [collapseAll]
  | n :: ns, h => by
    simp only [allCollapsed] at h
    simp [collapseAll, Collapse_of_Collapsed n h.1, collapseAll_of_allCollapsed ns h.2]
end

mutual
/-- A tree without any named node collapses to nothing. -/
theorem Collapse_unnamed : ∀ n : Node, (∀ m ∈ n.nodes, m.Name = "") → n.Collapse = []
  | ⟨d, e, fp, line, name, id, pkg, path, start, children, app, count⟩, h => by
    have hn : name = "" := by
      have := h _ (Node.mem_nodes_self _)
      simpa using this
    have ih := collapseAll_unnamed children (fun m hm => h m (by simp [Node.nodes, hm]))
    simp only [Node.Collapse, ih, if_pos hn]
/-- A forest without any named node collapses to nothing. -/
theorem collapseAll_unnamed : ∀ l : List Node, (∀ m ∈ nodesOf l, m.Name = "") →
    collapseAll l = []
  | [], _ => by simp [collapseAll]
  | n :: ns, h => by
    have h1 := Collapse_unnamed n (fun m hm => h m (by simp [nodesOf, hm]))
    have h2 := collapseAll_unnamed ns (fun m hm => h m (by simp [nodesOf, hm]))
    simp [collapseAll, h1, h2]
end

/-- A node without a name, or with a single sample, is replaced by the
collapsed replacements of its children. -/
theorem Collapse_dropped (n : Node) (h : n.Name = "" ∨ n.SampleCount = 1) :
    n.Collapse = collapseAll n.Children := by
  cases n
  simp only [Node.Collapse]
  simp only at h
  split_ifs with h1 h2
  · rfl
  · rfl
  · rcases h with h | h
    · exact absurd h h1
    · exact absurd h h2

end nodetree

/-! ## Claims on `nodetree.go` -/

namespace nodetree

/-- C2 (counterexample): with `start = 5` and `end = 0` the guard `end > 0`
leaves `DurationNS` at zero, while `EndNS - StartNS` is `2 ^ 64 - 5` in
unsigned 64-bit arithmetic. -/
theorem C2_duration_counterexample :
    ¬ (((NodeFromFrame "" "" "" 0 5 0 0).DurationNS : Int)
        = (((NodeFromFrame "" "" "" 0 5 0 0).EndNS : Int)
            - ((NodeFromFrame "" "" "" 0 5 0 0).StartNS : Int)) % (2 ^ 64 : Int)) := by
  decide

/-- C2 (amended): for `uint64` timestamps, the node returned by
`NodeFromFrame` has `DurationNS = EndNS - StartNS` modulo `2 ^ 64` whenever
`end > 0`, and `DurationNS = 0` when `end = 0`. -/
theorem C2_duration_of_NodeFromFrame (pkg name path : String) (line start end_ id : Nat)
    (hstart : start < 2 ^ 64) :
    (0 < end_ →
      ((NodeFromFrame pkg name path line start end_ id).DurationNS : Int)
        = (((NodeFromFrame pkg name path line start end_ id).EndNS : Int)
            - ((NodeFromFrame pkg name path line start end_ id).StartNS : Int))
          % (2 ^ 64 : Int)) ∧
    (end_ = 0 → (NodeFromFrame pkg name path line start end_ id).DurationNS = 0) := by
  constructor
  · intro h
    simp only [NodeFromFrame, if_pos h]
    exact sub64_eq_int end_ start hstart
  · intro h
    subst h
    simp [NodeFromFrame]

/-- C2 (witness): the amended statement at `start = 5`, `end = 3`, and at
`start = 5`, `end = 0`. -/
theorem C2_duration_of_NodeFromFrame_witness :
    ((NodeFromFrame "/usr/lib/libc.so" "f" "f.c" 7 5 3 9).DurationNS : Int)
      = (((NodeFromFrame "/usr/lib/libc.so" "f" "f.c" 7 5 3 9).EndNS : Int)
          - ((NodeFromFrame "/usr/lib/libc.so" "f" "f.c" 7 5 3 9).StartNS : Int))
        % (2 ^ 64 : Int) ∧
    (NodeFromFrame "/usr/lib/libc.so" "f" "f.c" 7 5 0 9).DurationNS = 0 :=
  ⟨(C2_duration_of_NodeFromFrame "/usr/lib/libc.so" "f" "f.c" 7 5 3 9
      (by decide)).1 (by decide),
   (C2_duration_of_NodeFromFrame "/usr/lib/libc.so" "f" "f.c" 7 5 0 9
      (by decide)).2 rfl⟩

/-- C3: after `n.SetDuration(t)` the node has `EndNS = t` and
`DurationNS = t - StartNS` modulo `2 ^ 64`, hence
`DurationNS = EndNS - StartNS` modulo `2 ^ 64`, whatever `n.EndNS` and
`n.DurationNS` were before. -/
theorem C3_SetDuration_sets_end_and_duration (n : Node) (t : Nat)
    (hstart : n.StartNS < 2 ^ 64) :
    (n.SetDuration t).EndNS = t ∧
    ((n.SetDuration t).DurationNS : Int) = ((t : Int) - (n.StartNS : Int)) % (2 ^ 64 : Int) ∧
    ((n.SetDuration t).DurationNS : Int)
      = (((n.SetDuration t).EndNS : Int) - ((n.SetDuration t).StartNS : Int))
        % (2 ^ 64 : Int) := by
  refine ⟨rfl, ?_, ?_⟩
  · simp only [Node.SetDuration]
    exact sub64_eq_int t n.StartNS hstart
  · simp only [Node.SetDuration]
    exact sub64_eq_int t n.StartNS hstart

/-- C3 (witness): a node with `StartNS = 20`, `EndNS = 10` and a stale
`DurationNS = 77`, set to `t = 5`. -/
theorem C3_SetDuration_sets_end_and_duration_witness :
    ((fixtures.testNode 77 10 true "f" "p" "f.go" 3 20 []).SetDuration 5).EndNS = 5 ∧
    (((fixtures.testNode 77 10 true "f" "p" "f.go" 3 20 []).SetDuration 5).DurationNS : Int)
      = ((5 : Int) - (20 : Int)) % (2 ^ 64 : Int) :=
  ⟨(C3_SetDuration_sets_end_and_duration
      (fixtures.testNode 77 10 true "f" "p" "f.go" 3 20 []) 5 (by decide)).1,
   (C3_SetDuration_sets_end_and_duration
      (fixtures.testNode 77 10 true "f" "p" "f.go" 3 20 []) 5 (by decide)).2.1⟩

/-- C4 (counterexample): on a node spanning `[0, 10]`, `SetDuration(5)` moves
`EndNS` back from 10 to 5 and `DurationNS` down from 10 to 5. -/
theorem C4_SetDuration_shrinks_counterexample :
    ((fixtures.testNode 10 10 true "root" "package" "path" 10 0 []).SetDuration 5).EndNS
      < (fixtures.testNode 10 10 true "root" "package" "path" 10 0 []).EndNS ∧
    ((fixtures.testNode 10 10 true "root" "package" "path" 10 0 []).SetDuration 5).DurationNS
      < (fixtures.testNode 10 10 true "root" "package" "path" 10 0 []).DurationNS := by
  decide

/-- C4 (amended): on a node whose span is consistent (`StartNS ≤ EndNS` and
`DurationNS = EndNS - StartNS`), `SetDuration(t)` with a `uint64` timestamp
`t ≥ EndNS` shrinks neither `EndNS` nor `DurationNS`. -/
theorem C4_SetDuration_grows_forward (n : Node) (t : Nat)
    (hspan : n.StartNS ≤ n.EndNS) (hdur : n.DurationNS = n.EndNS - n.StartNS)
    (ht : n.EndNS ≤ t) (hrange : t < 2 ^ 64) :
    n.EndNS ≤ (n.SetDuration t).EndNS ∧ n.DurationNS ≤ (n.SetDuration t).DurationNS := by
  refine ⟨ht, ?_⟩
  simp only [Node.SetDuration]
  rw [sub64_of_le t n.StartNS (le_trans hspan ht) hrange, hdur]
  omega

/-- C4 (witness): a node spanning `[2, 10]`, extended to `t = 15`. -/
theorem C4_SetDuration_grows_forward_witness :
    (fixtures.testNode 8 10 true "root" "package" "path" 10 2 []).EndNS
      ≤ ((fixtures.testNode 8 10 true "root" "package" "path" 10 2 []).SetDuration 15).EndNS ∧
    (fixtures.testNode 8 10 true "root" "package" "path" 10 2 []).DurationNS
      ≤ ((fixtures.testNode 8 10 true "root" "package" "path" 10 2 []).SetDuration 15).DurationNS :=
  C4_SetDuration_grows_forward (fixtures.testNode 8 10 true "root" "package" "path" 10 2 []) 15
    (by decide) (by decide) (by decide) (by decide)

end nodetree

/-! ## Claims on the collapser -/

namespace nodetree

/-- C5: no node with `SampleCount = 1` is left anywhere in the output of
`Collapse`; such a node is replaced by the collapsed replacements of its
children, in order, also inside a child list or a root list; and the test
case "collapse single sample" (children with counts 1, 1, 2) keeps only the
child with count 2. -/
theorem C5_single_sample_nodes_dropped :
    (∀ n m : Node, m ∈ nodesOf n.Collapse → m.SampleCount ≠ 1) ∧
    (∀ n : Node, n.SampleCount = 1 → n.Collapse = collapseAll n.Children) ∧
    (∀ (before after : List Node) (n : Node), n.SampleCount = 1 →
      collapseAll (before ++ n :: after)
        = collapseAll before ++ collapseAll n.Children ++ collapseAll after) ∧
    fixtures.singleSample.Collapse = fixtures.singleSampleWant := by
  refine ⟨?_, ?_, ?_, rfl⟩
  · intro n m hm
    exact (allCollapsed_nodes _ (Collapse_allCollapsed n) m hm).2
  · intro n h
    exact Collapse_dropped n (Or.inr h)
  · intro before after n h
    rw [collapseAll_append]
    simp only [collapseAll, Collapse_dropped n (Or.inr h), List.append_assoc]

/-- C6: no node with an empty name is left anywhere in the output of
`Collapse`; such a node is replaced by the collapsed replacements of its
children, also inside a child list or a root list; a tree all of whose nodes
have an empty name collapses to the empty list, as does the test case
"nested nodes, all unknown name". -/
theorem C6_unnamed_nodes_dropped :
    (∀ n m : Node, m ∈ nodesOf n.Collapse → m.Name ≠ "") ∧
    (∀ n : Node, n.Name = "" → n.Collapse = collapseAll n.Children) ∧
    (∀ (before after : List Node) (n : Node), n.Name = "" →
      collapseAll (before ++ n :: after)
        = collapseAll before ++ collapseAll n.Children ++ collapseAll after) ∧
    (∀ n : Node, (∀ m ∈ n.nodes, m.Name = "") → n.Collapse = []) ∧
    fixtures.allUnknown.Collapse = [] := by
  refine ⟨?_, ?_, ?_, Collapse_unnamed, rfl⟩
  · intro n m hm
    exact (allCollapsed_nodes _ (Collapse_allCollapsed n) m hm).1
  · intro n h
    exact Collapse_dropped n (Or.inl h)
  · intro before after n h
    rw [collapseAll_append]
    simp only [collapseAll, Collapse_dropped n (Or.inl h), List.append_assoc]

/-- C7: a named node `n` with `SampleCount ≠ 1` whose collapsed child list is
the single node `k` of the same duration collapses to exactly one node: `n`
itself, placed over the children of `k`, when `n` is an application frame and
`k` is not, and `k` in every other case; the result carries the name, package
and application flag of the node that is kept. -/
theorem C7_sole_child_fusion (n k : Node) (hname : n.Name ≠ "") (hcount : n.SampleCount ≠ 1)
    (hsole : collapseAll n.Children = [k]) (hdur : k.DurationNS = n.DurationNS) :
    ∃ r : Node, n.Collapse = [r] ∧
      ((n.IsApplication = true ∧ k.IsApplication = false) →
        r = { n with Children := k.Children } ∧
        r.Name = n.Name ∧ r.Package = n.Package ∧ r.IsApplication = n.IsApplication) ∧
      (¬ (n.IsApplication = true ∧ k.IsApplication = false) →
        r = k ∧ r.Name = k.Name ∧ r.Package = k.Package ∧
        r.IsApplication = k.IsApplication) := by
  cases n with
  | mk d e fp line name id pkg path start children app count =>
    simp only at hname hcount hsole hdur
    simp only [Node.Collapse, if_neg hname, if_neg hcount, hsole, hdur, if_true]
    by_cases h : app = true ∧ k.IsApplication = false
    · rw [if_pos (by simpa using h)]
      exact ⟨_, rfl, fun _ => ⟨rfl, rfl, rfl, rfl⟩, fun hn => absurd h hn⟩
    · rw [if_neg (by simpa using h)]
      exact ⟨_, rfl, fun hp => absurd hp h, fun _ => ⟨rfl, rfl, rfl, rfl⟩⟩

/-- C7 (witness): the test case "single child collapse child because parent
is application". -/
theorem C7_sole_child_fusion_witness :
    ∃ r : Node, fixtures.applicationParent.Collapse = [r] ∧
      ((fixtures.applicationParent.IsApplication = true ∧
          fixtures.systemChild.IsApplication = false) →
        r = { fixtures.applicationParent with Children := fixtures.systemChild.Children } ∧
        r.Name = fixtures.applicationParent.Name ∧
        r.Package = fixtures.applicationParent.Package ∧
        r.IsApplication = fixtures.applicationParent.IsApplication) ∧
      (¬ (fixtures.applicationParent.IsApplication = true ∧
          fixtures.systemChild.IsApplication = false) →
        r = fixtures.systemChild ∧ r.Name = fixtures.systemChild.Name ∧
        r.Package = fixtures.systemChild.Package ∧
        r.IsApplication = fixtures.systemChild.IsApplication) :=
  C7_sole_child_fusion fixtures.applicationParent fixtures.systemChild
    (by decide) (by decide) rfl rfl

/-- C8: `Collapse` is idempotent on forests: collapsing each root of an
already collapsed forest and concatenating the results gives the same forest;
so it is on the test case "collapse deeply nested node", whose expected
output collapses to itself. -/
theorem C8_Collapse_idempotent :
    (∀ F : List Node, collapseAll (collapseAll F) = collapseAll F) ∧
    fixtures.deeplyNested.Collapse = fixtures.deeplyNestedWant ∧
    collapseAll fixtures.deeplyNestedWant = fixtures.deeplyNestedWant :=
  ⟨fun F => collapseAll_of_allCollapsed _ (collapseAll_allCollapsed F), rfl, rfl⟩

end nodetree

/-! ## Claims on call-tree construction and the flamegraph -/

namespace flamegraph

/-- Appending a sample entry keeps the sequences parallel. -/
theorem Encoder.Parallel_addSample (f : Encoder) (stack : List Nat) (count : Nat)
    (ids : List Nat) (h : f.Parallel) : (f.addSample stack count ids).Parallel := by
  obtain ⟨h1, h2, h3⟩ := h
  refine ⟨?_, ?_, ?_⟩
  · simp [Encoder.addSample, h1]
  · simp [Encoder.addSample, h2]
  · simp [Encoder.addSample, h3]

/-- A frame-table lookup leaves the sample sequences alone. -/
theorem Encoder.Parallel_frameIndex (f : Encoder) (fr : speedscope.Frame) (h : f.Parallel) :
    (f.frameIndex fr).2.Parallel := by
  unfold Encoder.frameIndex
  split
  · exact h
  · exact h

mutual
/-- The walk of a flamegraph tree keeps the sequences parallel. -/
theorem visitCalltree_Parallel : ∀ (n : FlameNode) (stack : List Nat) (f : Encoder),
    f.Parallel → (visitCalltree n stack f).Parallel
  | ⟨name, pkg, app, count, ids, children⟩, stack, f, h => by
    have h1 := Encoder.Parallel_frameIndex f
      { Image := pkg, IsApplication := app, Name := name } h
    cases children with
    | nil =>
      simp only [visitCalltree]
      exact Encoder.Parallel_addSample _ _ _ _ h1
    | cons c cs =>
      have h2 := visitAll_Parallel (c :: cs)
        (stack ++ [(f.frameIndex { Image := pkg, IsApplication := app, Name := name }).1]) _ h1
      simp only [visitCalltree]
      split_ifs
      · exact Encoder.Parallel_addSample _ _ _ _ h2
      · exact h2
/-- The walk of a flamegraph forest keeps the sequences parallel. -/
theorem visitAll_Parallel : ∀ (l : List FlameNode) (stack : List Nat) (f : Encoder),
    f.Parallel → (visitAll l stack f).Parallel
  | [], _, f, h => by simpa [visitAll] using h
  | n :: ns, stack, f, h => by
    simp only [visitAll]
    exact visitAll_Parallel ns stack _ (visitCalltree_Parallel n stack f h)
end

/-- C10: whatever the ordered sequence of `(profileID, forest)` inputs, the
encoded flamegraph is one sampled profile whose samples, weights and
sample-origin lists have the same length and whose end value is the sum of
its weights. -/
theorem C10_parallel_sequences_and_end_value (inputs : List (String × List nodetree.Node)) :
    ∃ p : speedscope.SampledProfile,
      (toSpeedscope (aggregate inputs)).Profiles = [p] ∧
      p.Samples.length = p.Weights.length ∧
      p.Weights.length = p.SamplesProfiles.length ∧
      p.EndValue = p.Weights.sum := by
  have h := visitAll_Parallel (aggregate inputs).Trees [] Encoder.empty
    ⟨rfl, rfl, rfl⟩
  exact ⟨_, rfl, h.1, h.2.1, h.2.2⟩

/-- C9 (evaluation at the failing input): on the fixture profiles "ab1" and
"cd2", `CallTrees` returns an empty map for both, so the forest of context 0
is empty each time and the encoded flamegraph has the two profile IDs but no
frame, no sample, no weight and end value 0; it is not the output the test
expects (samples `[[0,1],[0],[2,0],[2],[3]]`, end value 7). -/
theorem C9_fixture_flamegraph_is_empty :
    generate [fixtures.ab1, fixtures.cd2] = Except.ok fixtures.emptyOutput ∧
    generate [fixtures.ab1, fixtures.cd2] ≠ Except.ok fixtures.want := by
  have h : generate [fixtures.ab1, fixtures.cd2] = Except.ok fixtures.emptyOutput := rfl
  refine ⟨h, ?_⟩
  rw [h]
  intro hw
  injection hw with hw
  revert hw
  decide

/-- The worked scenario of section 8 holds of the call-tree builder,
aggregator and encoder of the specification: on the fixture traces of "ab1"
and "cd2" they give exactly the output the test expects. -/
theorem worked_scenario_of_spec_pipeline :
    (generateWith (fun _ => 0)
      [("ab1", fixtures.ab1Trace), ("cd2", fixtures.cd2Trace)]).toOption
      = some fixtures.want := by
  decide

end flamegraph

namespace sample

/-- C1 (evaluation at the failing input): in the fixture profile "ab1" the
first sample has the non-empty call path a, b, yet `CallTrees` returns the
empty map and a nil error, directly and through `profile.Profile`, so the
forest of every execution context holds no chain spelling that path. -/
theorem C1_CallTrees_holds_no_chain :
    fixtures.ab1.Trace.Samples.head?.bind fixtures.ab1.Trace.callPath = some ["a", "b"] ∧
    fixtures.ab1.CallTrees = ([], none) ∧
    (profile.New (.sampleProfile fixtures.ab1)).CallTrees = ([], none) ∧
    ∀ ctx : Nat,
      nodetree.countChainsIn (fixtures.ab1.CallTrees.1.index ctx) ["a", "b"] = 0 := by
  refine ⟨by decide, rfl, rfl, ?_⟩
  intro ctx
  rfl

end sample

/-! ## Claims on `CallTrees` for malformed and empty traces -/

namespace sample

/-- C11 (counterexample): the profile whose only stack references frame 5 of a
one-frame table, and the profile whose only sample references stack 3 of a
one-stack table, are malformed, yet `CallTrees` returns a nil error for both,
directly and through `profile.Profile`. -/
theorem C11_malformed_trace_counterexample :
    fixtures.malformedFrame.Trace.malformed = true ∧
    fixtures.malformedFrame.CallTrees.2 = none ∧
    (profile.New (.sampleProfile fixtures.malformedFrame)).CallTrees.2 = none ∧
    fixtures.malformedStack.Trace.malformed = true ∧
    fixtures.malformedStack.CallTrees.2 = none := by
  refine ⟨by decide, rfl, rfl, by decide, rfl⟩

/-- C11 (amended): `CallTrees` returns a nil error for every sample-format
profile, directly and through `profile.Profile`: the indices of the trace are
not checked, so a malformed trace is not reported. -/
theorem C11_CallTrees_reports_no_error (p : Profile) :
    p.CallTrees.2 = none ∧
    (profile.New (.sampleProfile p)).CallTrees.2 = none ∧
    (p.Trace.malformed = true → p.CallTrees.2 = none) :=
  ⟨rfl, rfl, fun _ => rfl⟩

/-- C12: for a sample-format profile with zero samples `CallTrees` returns an
empty mapping, so no forest and no node under any key, and a nil error, also
through `profile.Profile`. -/
theorem C12_no_samples_empty_mapping (p : Profile) (hempty : p.Trace.Samples = []) :
    p.CallTrees = ([], none) ∧
    (profile.New (.sampleProfile p)).CallTrees = ([], none) ∧
    (∀ ctx : Nat, p.CallTrees.1.index ctx = []) ∧
    (∀ ctx : Nat, nodetree.nodesOf (p.CallTrees.1.index ctx) = []) := by
  have _ := hempty
  exact ⟨rfl, rfl, fun _ => rfl, fun _ => rfl⟩

/-- C12 (witness): the fixture without samples. -/
theorem C12_no_samples_empty_mapping_witness :
    fixtures.noSamples.CallTrees = ([], none) ∧
    (profile.New (.sampleProfile fixtures.noSamples)).CallTrees = ([], none) ∧
    (∀ ctx : Nat, fixtures.noSamples.CallTrees.1.index ctx = []) ∧
    (∀ ctx : Nat, nodetree.nodesOf (fixtures.noSamples.CallTrees.1.index ctx) = []) :=
  C12_no_samples_empty_mapping fixtures.noSamples rfl

end sample

/-! ## Further claims on `nodetree.go` and on the collapser -/

namespace nodetree

/-- C15: the node returned by `NodeFromFrame` has `Fingerprint` and `ID` equal
to the `id` given, `StartNS = start`, `EndNS = end`, the name, path and line
given, and no children. -/
theorem C15_NodeFromFrame_fields (pkg name path : String) (line start end_ id : Nat) :
    (NodeFromFrame pkg name path line start end_ id).Fingerprint = id ∧
    (NodeFromFrame pkg name path line start end_ id).ID = id ∧
    (NodeFromFrame pkg name path line start end_ id).StartNS = start ∧
    (NodeFromFrame pkg name path line start end_ id).EndNS = end_ ∧
    (NodeFromFrame pkg name path line start end_ id).Name = name ∧
    (NodeFromFrame pkg name path line start end_ id).Path = path ∧
    (NodeFromFrame pkg name path line start end_ id).Line = line ∧
    (NodeFromFrame pkg name path line start end_ id).Children = [] := by
  unfold NodeFromFrame
  split_ifs <;> exact ⟨rfl, rfl, rfl, rfl, rfl, rfl, rfl, rfl⟩

/-- C16: a named node with a sample count other than one whose collapsed child
list is not a single child of the node's own duration collapses to itself,
its fields unchanged and its children replaced by their collapsed
replacements. -/
theorem C16_node_kept_over_collapsed_children (n : Node) (hname : n.Name ≠ "")
    (hcount : n.SampleCount ≠ 1)
    (hnot : ¬ ∃ k : Node, collapseAll n.Children = [k] ∧ k.DurationNS = n.DurationNS) :
    n.Collapse = [{ n with Children := collapseAll n.Children }] := by
  cases n with
  | mk d e fp line name id pkg path start children app count =>
    simp only at hname hcount hnot
    simp only [Node.Collapse, if_neg hname, if_neg hcount]
    split
    · rename_i k hk
      have hd : ¬ d = k.DurationNS := fun h => hnot ⟨k, hk, h.symm⟩
      rw [if_neg hd, hk]
    · rfl

/-- C16 (witness): the test cases "single child no collapse - duration
mismatch" and "multiple children no collapse". -/
theorem C16_node_kept_over_collapsed_children_witness :
    fixtures.durationMismatch.Collapse
      = [{ fixtures.durationMismatch with
            Children := collapseAll fixtures.durationMismatch.Children }] ∧
    fixtures.multipleChildren.Collapse
      = [{ fixtures.multipleChildren with
            Children := collapseAll fixtures.multipleChildren.Children }] :=
  ⟨C16_node_kept_over_collapsed_children fixtures.durationMismatch (by decide) (by decide)
    (by
      rintro ⟨k, hk, hd⟩
      have h : collapseAll fixtures.durationMismatch.Children
          = [fixtures.testNode 5 5 true "child" "package" "path" 5 0 []] := rfl
      rw [h] at hk
      injection hk with hk _
      subst hk
      revert hd
      decide),
   C16_node_kept_over_collapsed_children fixtures.multipleChildren (by decide) (by decide)
    (by
      rintro ⟨k, hk, _⟩
      have h : collapseAll fixtures.multipleChildren.Children
          = [fixtures.testNode 5 5 true "child1" "package" "path" 5 0 [],
             fixtures.testNode 5 10 true "child2" "package" "path" 5 5 []] := rfl
      rw [h] at hk
      injection hk with _ hk
      exact absurd hk (by simp))⟩

/-- C17: `SetDuration` changes `EndNS` and `DurationNS` only: the start
timestamp, fingerprint, ID, name, package, path, line and children, as well as
the application flag and the sample count, are as before the call. -/
theorem C17_SetDuration_frame (n : Node) (t : Nat) :
    (n.SetDuration t).StartNS = n.StartNS ∧
    (n.SetDuration t).Fingerprint = n.Fingerprint ∧
    (n.SetDuration t).ID = n.ID ∧
    (n.SetDuration t).Name = n.Name ∧
    (n.SetDuration t).Package = n.Package ∧
    (n.SetDuration t).Path = n.Path ∧
    (n.SetDuration t).Line = n.Line ∧
    (n.SetDuration t).Children = n.Children ∧
    (n.SetDuration t).IsApplication = n.IsApplication ∧
    (n.SetDuration t).SampleCount = n.SampleCount ∧
    n.SetDuration t
      = { n with EndNS := (n.SetDuration t).EndNS, DurationNS := (n.SetDuration t).DurationNS } :=
  ⟨rfl, rfl, rfl, rfl, rfl, rfl, rfl, rfl, rfl, rfl, rfl⟩

end nodetree

/-! ## Claims on the decoding of profiles -/

namespace profile

end profile

namespace sample

/-- C20 (evaluation at the failing input): on the input `{}`, which the
decoder scans as a value spanning the whole input, `UnmarshalJSON` does not
return within any number of nested calls: each call hands the same bytes to
`json.Unmarshal`, which calls the method again. -/
theorem C20_UnmarshalJSON_reenters_forever (scan : String → json.Scan)
    (hscan : scan "{}" = json.Scan.value "{}") :
    ∀ fuel : Nat, Profile.UnmarshalJSON scan fuel "{}" = none := by
  intro fuel
  induction fuel with
  | zero => rfl
  | succ fuel ih =>
    simp only [Profile.UnmarshalJSON, json.Unmarshal, hscan, ih]

/-- C20 (witness): with a scanner that takes every input for a value, a
budget of a thousand nested calls does not let the call on `{}` return. -/
theorem C20_UnmarshalJSON_reenters_forever_witness :
    Profile.UnmarshalJSON fixtures.scanValue 1000 "{}" = none :=
  C20_UnmarshalJSON_reenters_forever fixtures.scanValue rfl 1000

/-- Where `UnmarshalJSON` does return: on a syntax error, with that error, and
on the literal `null`, with nil; in both cases from the first call. -/
theorem UnmarshalJSON_returns_without_reentry (scan : String → json.Scan) (b : String)
    (fuel : Nat) :
    (∀ err, scan b = json.Scan.syntaxError err →
      Profile.UnmarshalJSON scan (fuel + 1) b = some (some err)) ∧
    (scan b = json.Scan.null → Profile.UnmarshalJSON scan (fuel + 1) b = some none) := by
  constructor
  · intro err h
    simp only [Profile.UnmarshalJSON, json.Unmarshal, h]
  · intro h
    simp only [Profile.UnmarshalJSON, json.Unmarshal, h]

end sample

/-! ## Claims on package base names and storage paths -/

namespace calltree

/-- The base name holds no `/`. -/
theorem ImageBaseName_no_slash (image : String) : '/' ∉ (ImageBaseName image).data := by
  unfold ImageBaseName
  simp only [List.mem_reverse]
  intro h
  have := List.mem_takeWhile_imp h
  simp at this

/-- The base name of `dir ++ "/" ++ base`, for a `base` without `/`, is
`base`. -/
theorem ImageBaseName_dir (dir base : String) (hbase : '/' ∉ base.data) :
    ImageBaseName (dir ++ "/" ++ base) = base := by
  unfold ImageBaseName
  have h1 : (dir ++ "/" ++ base).data.reverse = base.data.reverse ++ '/' :: dir.data.reverse := by
    simp [String.data_append]
  rw [h1]
  have h2 : List.takeWhile (fun c => c != '/') (base.data.reverse ++ '/' :: dir.data.reverse)
      = base.data.reverse := by
    rw [List.takeWhile_append_of_pos]
    · simp
    · intro c hc
      have : c ≠ '/' := fun h => hbase (by rw [← h]; exact List.mem_reverse.1 hc)
      simpa using this
  rw [h2]
  simp

/-- The base name of a string without `/` is the string. -/
theorem ImageBaseName_plain (base : String) (hbase : '/' ∉ base.data) :
    ImageBaseName base = base := by
  unfold ImageBaseName
  have h2 : List.takeWhile (fun c => c != '/') base.data.reverse = base.data.reverse := by
    rw [List.takeWhile_eq_self_iff]
    intro c hc
    have : c ≠ '/' := fun h => hbase (by rw [← h]; exact List.mem_reverse.1 hc)
    simpa using this
  rw [h2]
  simp

end calltree

namespace nodetree

/-- C13: the `Package` of the node returned by `NodeFromFrame` is the base
name of the package string given: it holds no `/`, so it does not begin with
one; it is the last component `base` of `dir/base`, and a package string
without `/` is stored as it is; hence two package strings
with the same last component and different directories give equal packages;
and the package of the test, `/usr/lib/system/libdispatch.dylib`, is stored
as `libdispatch.dylib`. -/
theorem C13_package_is_base_name :
    (∀ (pkg name path : String) (line start end_ id : Nat),
      (NodeFromFrame pkg name path line start end_ id).Package = calltree.ImageBaseName pkg ∧
      '/' ∉ (NodeFromFrame pkg name path line start end_ id).Package.data ∧
      (NodeFromFrame pkg name path line start end_ id).Package.data.head? ≠ some '/') ∧
    (∀ (dir base name path : String) (line start end_ id : Nat), '/' ∉ base.data →
      (NodeFromFrame (dir ++ "/" ++ base) name path line start end_ id).Package = base) ∧
    (∀ (base name path : String) (line start end_ id : Nat), '/' ∉ base.data →
      (NodeFromFrame base name path line start end_ id).Package = base) ∧
    (∀ (dir1 dir2 base name path : String) (line start end_ id : Nat), '/' ∉ base.data →
      (NodeFromFrame (dir1 ++ "/" ++ base) name path line start end_ id).Package
        = (NodeFromFrame (dir2 ++ "/" ++ base) name path line start end_ id).Package) ∧
    (NodeFromFrame "/usr/lib/system/libdispatch.dylib"
        "_dispatch_event_loop_leave_immediate" "" 0 0 0 1234567890).Package
      = "libdispatch.dylib" := by
  have hpkg : ∀ (pkg name path : String) (line start end_ id : Nat),
      (NodeFromFrame pkg name path line start end_ id).Package = calltree.ImageBaseName pkg := by
    intro pkg name path line start end_ id
    unfold NodeFromFrame
    split_ifs <;> rfl
  refine ⟨?_, ?_, ?_, ?_, ?_⟩
  · intro pkg name path line start end_ id
    rw [hpkg]
    refine ⟨rfl, calltree.ImageBaseName_no_slash pkg, ?_⟩
    intro h
    exact calltree.ImageBaseName_no_slash pkg (List.mem_of_mem_head? h)
  · intro dir base name path line start end_ id hbase
    rw [hpkg, calltree.ImageBaseName_dir dir base hbase]
  · intro base name path line start end_ id hbase
    rw [hpkg, calltree.ImageBaseName_plain base hbase]
  · intro dir1 dir2 base name path line start end_ id hbase
    rw [hpkg, hpkg, calltree.ImageBaseName_dir dir1 base hbase,
      calltree.ImageBaseName_dir dir2 base hbase]
  · rw [hpkg]
    decide

end nodetree

namespace sample

/-- A decimal digit character is a digit and denotes its number. -/
theorem digitChar_facts (k : Nat) (hk : k < 10) :
    (Nat.digitChar k).isDigit = true ∧ (Nat.digitChar k).toNat - 48 = k := by
  interval_cases k <;> decide

/-- The characters that `toDigitsCore` puts in front of `ds` are decimal
digits. -/
theorem toDigitsCore_chars (fuel : Nat) : ∀ (n : Nat) (ds : List Char) (c : Char),
    c ∈ Nat.toDigitsCore 10 fuel n ds → c ∈ ds ∨ c.isDigit = true := by
  induction fuel with
  | zero =>
    intro n ds c h
    exact Or.inl (by simpa [Nat.toDigitsCore] using h)
  | succ fuel ih =>
    intro n ds c h
    have hd := (digitChar_facts (n % 10) (Nat.mod_lt _ (by decide))).1
    simp only [Nat.toDigitsCore] at h
    split_ifs at h with h0
    · rcases List.mem_cons.1 h with h | h
      · exact Or.inr (h ▸ hd)
      · exact Or.inl h
    · rcases ih _ _ c h with h | h
      · rcases List.mem_cons.1 h with h | h
        · exact Or.inr (h ▸ hd)
        · exact Or.inl h
      · exact Or.inr h

/-- With enough fuel, reading back what `toDigitsCore` writes in front of
`ds` continues from the number written. -/
theorem toDigitsCore_value (fuel : Nat) : ∀ (n : Nat) (ds : List Char), n < fuel →
    (Nat.toDigitsCore 10 fuel n ds).foldl (fun acc c => acc * 10 + (c.toNat - 48)) 0
      = ds.foldl (fun acc c => acc * 10 + (c.toNat - 48)) n := by
  induction fuel with
  | zero => intro n ds h; omega
  | succ fuel ih =>
    intro n ds h
    have hd := (digitChar_facts (n % 10) (Nat.mod_lt _ (by decide))).2
    simp only [Nat.toDigitsCore]
    split_ifs with h0
    · simp only [List.foldl_cons, hd]
      congr 1
      omega
    · rw [ih (n / 10) _ (by omega)]
      simp only [List.foldl_cons, hd]
      congr 1
      omega

/-- The decimal numeral of `n` consists of digits. -/
theorem repr_digits (n : Nat) : ∀ c ∈ (Nat.repr n).data, c.isDigit = true := by
  intro c hc
  simp only [Nat.repr, Nat.toDigits, List.asString] at hc
  rcases toDigitsCore_chars (n + 1) n [] c hc with h | h
  · simp at h
  · exact h

/-- The decimal numeral of `n` holds neither `/` nor `-`. -/
theorem repr_chars (n : Nat) : '/' ∉ (Nat.repr n).data ∧ '-' ∉ (Nat.repr n).data :=
  ⟨fun h => absurd (repr_digits n _ h) (by decide),
   fun h => absurd (repr_digits n _ h) (by decide)⟩

/-- The decimal numeral of `n` denotes `n`. -/
theorem decimalValue_repr (n : Nat) : decimalValue (Nat.repr n).data = n := by
  simp only [Nat.repr, Nat.toDigits, List.asString, decimalValue]
  rw [toDigitsCore_value (n + 1) n [] (by omega)]
  rfl

/-- Two lists that agree after a first `/` agree before and after it. -/
theorem split_at_slash : ∀ (a b r s : List Char), '/' ∉ a → '/' ∉ b →
    a ++ '/' :: r = b ++ '/' :: s → a = b ∧ r = s
  | [], [], r, s, _, _, h => by simpa using h
  | [], y :: b, r, s, _, hb, h => by
    simp only [List.nil_append, List.cons_append, List.cons.injEq] at h
    exact absurd (h.1 ▸ List.mem_cons_self _ _) hb
  | x :: a, [], r, s, ha, _, h => by
    simp only [List.nil_append, List.cons_append, List.cons.injEq] at h
    exact absurd (h.1 ▸ List.mem_cons_self _ _) ha
  | x :: a, y :: b, r, s, ha, hb, h => by
    simp only [List.cons_append, List.cons.injEq] at h
    have := split_at_slash a b r s (fun m => ha (List.mem_cons_of_mem _ m))
      (fun m => hb (List.mem_cons_of_mem _ m)) h.2
    exact ⟨by rw [h.1, this.1], this.2⟩

/-- The characters of a storage path. -/
theorem StoragePath_data (organizationID projectID : Nat) (profileID : String) :
    (StoragePath organizationID projectID profileID).data
      = (Nat.repr organizationID).data ++ '/' :: ((Nat.repr projectID).data
          ++ '/' :: profileID.data.filter (fun c => c != '-')) := by
  simp [StoragePath, removeDashes, String.data_append]

/-- C18: the storage path is the decimal numeral of the organization ID, a
`/`, the decimal numeral of the project ID, a `/`, and the profile ID without
its dashes; it holds no `-`; and a profile ID and the same ID stripped of its
dashes give the same path. `Profile.StoragePath` is that path for the fields
of the profile. -/
theorem C18_StoragePath_shape (organizationID projectID : Nat) (profileID : String) :
    (∃ a b : List Char,
      (StoragePath organizationID projectID profileID).data
        = a ++ '/' :: (b ++ '/' :: profileID.data.filter (fun c => c != '-')) ∧
      (∀ c ∈ a, c.isDigit = true) ∧ decimalValue a = organizationID ∧
      (∀ c ∈ b, c.isDigit = true) ∧ decimalValue b = projectID) ∧
    '-' ∉ (StoragePath organizationID projectID profileID).data ∧
    StoragePath organizationID projectID (removeDashes profileID)
      = StoragePath organizationID projectID profileID ∧
    (∀ p : Profile, p.StoragePath = StoragePath p.OrganizationID p.ProjectID p.EventID) := by
  refine ⟨⟨_, _, StoragePath_data _ _ _, repr_digits _, decimalValue_repr _, repr_digits _,
    decimalValue_repr _⟩, ?_, ?_, fun _ => rfl⟩
  · rw [StoragePath_data]
    simp only [List.mem_append, List.mem_cons, List.mem_filter, not_or]
    refine ⟨(repr_chars _).2, by decide, (repr_chars _).2, by decide, ?_⟩
    intro h
    simp at h
  · simp [StoragePath, removeDashes, List.filter_filter]

/-- C19: two storage paths are equal exactly when the organization IDs are
equal, the project IDs are equal and the profile IDs are equal once their
dashes are removed. -/
theorem C19_StoragePath_injective (org1 proj1 org2 proj2 : Nat) (id1 id2 : String) :
    StoragePath org1 proj1 id1 = StoragePath org2 proj2 id2
      ↔ org1 = org2 ∧ proj1 = proj2 ∧ removeDashes id1 = removeDashes id2 := by
  constructor
  · intro h
    have hd := congrArg String.data h
    rw [StoragePath_data, StoragePath_data] at hd
    obtain ⟨h1, hd⟩ := split_at_slash _ _ _ _ (repr_chars org1).1 (repr_chars org2).1 hd
    obtain ⟨h2, h3⟩ := split_at_slash _ _ _ _ (repr_chars proj1).1 (repr_chars proj2).1 hd
    refine ⟨?_, ?_, ?_⟩
    · rw [← decimalValue_repr org1, ← decimalValue_repr org2, h1]
    · rw [← decimalValue_repr proj1, ← decimalValue_repr proj2, h2]
    · simp only [removeDashes, h3]
  · rintro ⟨h1, h2, h3⟩
    simp only [StoragePath, h1, h2, h3]

end sample
